import Mathlib

/-!
Shallow embedding of the nexusmods-notifier change-detection core
(src/main.py).  The two polling loops, `additions` and `updates`, are
modelled as pure functions over explicit state; the remote API and the
messaging endpoint are modelled as environments of (possibly failing)
fetch results; the persisted JSON state files are modelled as the
structured values they serialize.
-/

/-- A mod summary as consumed by the Addition Tracker
(items of the latest_added list, src/main.py lines 106-136).
Only the fields the code reads are modelled. -/
structure ModSummary where
  mod_id : Nat
  author : String
  name : String
  domain_name : String
  version : String
  available : Bool
  contains_adult_content : Bool
deriving Repr, DecidableEq

/-- An item of the tracked-mods list as accessed by the Update Tracker
(src/main.py lines 197-198: the code reads mod["mod_id"] and
mod["is_adult"] on the freshly fetched list). -/
structure TrackedMod where
  mod_id : Nat
  is_adult : Bool
deriving Repr, DecidableEq

/-- The result of fetch_mod (full mod details), restricted to the fields
the code reads (src/main.py lines 180-184, 206-262). -/
structure ModDetails where
  name : String
  author : String
  domain_name : String
  version : String
  contains_adult_content : Bool
deriving Repr, DecidableEq

/-- One entry of the Update Tracker cache:
a record with keys version / is_adult / latest_file_update
(src/main.py lines 181-185, 207-211, 258-262). -/
structure CacheEntry where
  version : String
  is_adult : Bool
  latest_file_update : Option Int
deriving Repr, DecidableEq

/-- An item of the recently-updated list (src/main.py lines 175, 194):
the code reads mod["mod_id"] and mod["latest_file_update"], the latter
possibly null. -/
structure UpdatedEntry where
  mod_id : Nat
  latest_file_update : Option Int
deriving Repr, DecidableEq

/-- The Update Tracker cache: a Python dict from mod id to entry,
modelled as an insertion-ordered association list. -/
abbrev Cache := List (Nat × CacheEntry)

/-- The Addition Tracker seen-set (a Python set of ints); only
membership is meaningful. -/
abbrev Seen := List Nat

/-- Python dict assignment d[k] = v: replace the value in place if the
key is present, append otherwise. -/
def assocUpsert : List (Nat × α) → Nat → α → List (Nat × α)
  | [], k, v => [(k, v)]
  | p :: rest, k, v => if p.1 = k then (k, v) :: rest else p :: assocUpsert rest k v

/-- Python dict construction from a sequence of pairs (dict comprehension
semantics: a later pair with the same key overwrites the earlier one). -/
def dictOf (l : List (Nat × α)) : List (Nat × α) :=
  l.foldl (fun d p => assocUpsert d p.1 p.2) []

/-- The notification the Addition Tracker sends per new mod
(send_telegram_message call at src/main.py lines 128-136); the
formatted text is represented by its constituent fields. -/
structure AddNotification where
  mod_id : Nat
  name : String
  author : String
  version : String
  domain_name : String
deriving Repr, DecidableEq

/-- One iteration of the per-mod loop of `additions`
(src/main.py lines 107-136): skip if seen; skip without marking if
unavailable; otherwise mark seen, then notify unless filtered by the
adult-content policy. -/
def additionsStep (hide_adult_content : Bool) (st : Seen × List AddNotification)
    (mod : ModSummary) : Seen × List AddNotification :=
  if mod.mod_id ∈ st.1 then st
  else if mod.available = false then st
  else
    let seen := mod.mod_id :: st.1
    if hide_adult_content && mod.contains_adult_content then (seen, st.2)
    else (seen, st.2 ++ [⟨mod.mod_id, mod.name, mod.author, mod.version, mod.domain_name⟩])

/-- One full Addition Tracker cycle on a remote snapshot
(src/main.py lines 105-145): process the snapshot sorted by mod id. -/
def additionsCycle (hide_adult_content : Bool) (mods : List ModSummary) (seen : Seen) :
    Seen × List AddNotification :=
  (mods.mergeSort (fun a b => decide (a.mod_id ≤ b.mod_id))).foldl
    (additionsStep hide_adult_content) (seen, [])

/-- A sequence of Addition Tracker cycles, each with its own
adult-content flag and remote snapshot, threading the seen-set and
concatenating the notifications. -/
def additionsCycles : List (Bool × List ModSummary) → Seen → Seen × List AddNotification
  | [], seen => (seen, [])
  | (hide, mods) :: rest, seen =>
    let r1 := additionsCycle hide mods seen
    let r2 := additionsCycles rest r1.1
    (r2.1, r1.2 ++ r2.2)

/-- The Addition Tracker loop with fallible remote fetches
(src/main.py lines 104-150): the fetch at line 106 is not wrapped in
any exception handler, so a failure propagates out of the loop. -/
def additionsRun : List (Except String (List ModSummary)) → Bool → Seen →
    Except String (Seen × List (List AddNotification))
  | [], _, seen => .ok (seen, [])
  | f :: rest, hide, seen =>
    match f with
    | .error e => .error e
    | .ok mods =>
      let r1 := additionsCycle hide mods seen
      match additionsRun rest hide r1.1 with
      | .error e => .error e
      | .ok r => .ok (r.1, r1.2 :: r.2)

/-- The remote environment seen by the Update Tracker: each fetch either
returns a parsed response or raises (modelled as Except.error with the
exception message). -/
structure Env where
  fetch_updated_mods : Except String (List UpdatedEntry)
  fetch_tracked_mods : Except String (List TrackedMod)
  fetch_mod : Nat → Except String ModDetails
  fetch_mod_changelogs : Nat → Except String (List (String × List String))

/-- The notification the Update Tracker sends per confirmed version
change (src/main.py lines 234-244); new_versions is the ordered list of
changelog entries bundled into the message text. -/
structure UpdNotification where
  mod_id : Nat
  name : String
  author : String
  domain_name : String
  old_version : String
  new_version : String
  new_versions : List (String × List String)
deriving Repr, DecidableEq

/-- One report row appended per newly surfaced changelog version
(src/main.py lines 246-256). -/
structure ReportRow where
  mod_id : Nat
  author : String
  name : String
  domain_name : String
  old_version : String
  new_version : String
deriving Repr, DecidableEq

/-- Python truthiness of an int-or-None latest_file_update value
(the test at src/main.py line 215). -/
def lfuTruthy : Option Int → Bool
  | none => false
  | some n => n != 0

/-- The changelog-entry selection of src/main.py lines 223-227:
last_version_index is the position of the old version among the keys if
present, and -2 otherwise; the reported entries are the Python slice
items[last_version_index + 1 :], where the -2 fallback yields the slice
[-1:], i.e. drop all but the last entry. -/
def newVersionsOf (changelogs : List (String × List String)) (old_version : String) :
    List (String × List String) :=
  match changelogs.findIdx? (fun p => p.1 == old_version) with
  | some i => changelogs.drop (i + 1)
  | none => changelogs.drop (changelogs.length - 1)

/-- The mutable state threaded through one steady-state Update Tracker
cycle; fetched instruments the ids passed to fetch_mod, and error holds
the first uncaught exception (after which the remaining loop iterations
are not executed, as in Python). -/
structure UpdState where
  cache : Cache
  notifications : List UpdNotification
  rows : List ReportRow
  fetched : List Nat
  error : Option String
deriving Repr, DecidableEq

/-- The adult-content filter applied to the freshly fetched tracked-mod
list (src/main.py line 198), followed by Python set construction
(modelled as dedup; set iteration order is arbitrary and every claim
below is order-independent). -/
def filteredTrackedIds (hide_adult_content : Bool) (tracked_mods : List TrackedMod) :
    List Nat :=
  ((tracked_mods.filter (fun m => !hide_adult_content || !m.is_adult)).map
    (fun m => m.mod_id)).dedup

/-- One iteration of the per-id loop of the steady-state `updates` cycle
(src/main.py lines 200-262). -/
def updatesStep (env : Env) (updated_mod_data : List (Nat × Option Int))
    (st : UpdState) (mod_id : Nat) : UpdState :=
  if st.error.isSome then st
  else
    let new_latest_file_update : Option Int := (updated_mod_data.lookup mod_id).join
    match st.cache.lookup mod_id with
    | none =>
      match env.fetch_mod mod_id with
      | .error e => { st with fetched := st.fetched ++ [mod_id], error := some e }
      | .ok mod_details =>
        { st with
          cache := assocUpsert st.cache mod_id
            ⟨mod_details.version, mod_details.contains_adult_content, new_latest_file_update⟩,
          fetched := st.fetched ++ [mod_id] }
    | some cachedEntry =>
      if lfuTruthy new_latest_file_update
          && (cachedEntry.latest_file_update != new_latest_file_update) then
        match env.fetch_mod mod_id with
        | .error e => { st with fetched := st.fetched ++ [mod_id], error := some e }
        | .ok mod_details =>
          let new_version := mod_details.version
          let old_version := cachedEntry.version
          if old_version != "" && new_version != "" && old_version != new_version then
            match env.fetch_mod_changelogs mod_id with
            | .error e => { st with fetched := st.fetched ++ [mod_id], error := some e }
            | .ok changelogs =>
              let new_versions := newVersionsOf changelogs old_version
              { st with
                cache := assocUpsert st.cache mod_id
                  ⟨new_version, mod_details.contains_adult_content, new_latest_file_update⟩,
                notifications := st.notifications ++
                  [⟨mod_id, mod_details.name, mod_details.author, mod_details.domain_name,
                    old_version, new_version, new_versions⟩],
                rows := st.rows ++ new_versions.map (fun p =>
                  ⟨mod_id, mod_details.author, mod_details.name, mod_details.domain_name,
                    old_version, p.1⟩),
                fetched := st.fetched ++ [mod_id] }
          else
            { st with
              cache := assocUpsert st.cache mod_id
                ⟨new_version, mod_details.contains_adult_content, new_latest_file_update⟩,
              fetched := st.fetched ++ [mod_id] }
      else st

/-- The body of one steady-state Update Tracker cycle
(src/main.py lines 191-264, the extent of the try block): fetch the
recently-updated map and the tracked list, filter by the adult policy,
and process each tracked id; a raised exception is recorded in the
error field with all state mutated so far retained. -/
def updatesCycleBody (env : Env) (hide_adult_content : Bool) (cache : Cache) : UpdState :=
  match env.fetch_updated_mods with
  | .error e => ⟨cache, [], [], [], some e⟩
  | .ok updated_mods =>
    let updated_mod_data :=
      dictOf (updated_mods.map (fun m => (m.mod_id, m.latest_file_update)))
    match env.fetch_tracked_mods with
    | .error e => ⟨cache, [], [], [], some e⟩
    | .ok tracked_mods =>
      (filteredTrackedIds hide_adult_content tracked_mods).foldl
        (updatesStep env updated_mod_data) ⟨cache, [], [], [], none⟩

/-- The outcome of running several steady-state cycles: the final
in-memory cache, the persisted snapshots in order (save_state at
src/main.py line 264 runs only when the cycle body raised nothing), all
notifications, and the caught-and-logged exception messages
(src/main.py lines 266-267). -/
structure RunResult where
  cache : Cache
  saved : List Cache
  notifs : List UpdNotification
  errors : List String
deriving Repr, DecidableEq

/-- The steady-state while loop of `updates` (src/main.py lines
189-280): each cycle body runs inside try/except, so an exception is
logged and the loop proceeds with the cache as mutated so far. -/
def updatesLoopRun : List Env → Bool → Cache → RunResult
  | [], _, cache => ⟨cache, [], [], []⟩
  | env :: rest, hide, cache =>
    let st := updatesCycleBody env hide cache
    let r := updatesLoopRun rest hide st.cache
    ⟨r.cache, (match st.error with | none => [st.cache] | some _ => []) ++ r.saved,
      st.notifications ++ r.notifs, st.error.toList ++ r.errors⟩

/-- The per-id seeding loop of the bootstrap phase (src/main.py lines
179-185): an exception from fetch_mod propagates immediately. -/
def bootstrapFold (env : Env) (updated_mod_data : List (Nat × Option Int)) :
    List Nat → Cache → Except String Cache
  | [], c => .ok c
  | id :: rest, c =>
    match env.fetch_mod id with
    | .error e => .error e
    | .ok mod_info =>
      bootstrapFold env updated_mod_data rest
        (assocUpsert c id
          ⟨mod_info.version, mod_info.contains_adult_content,
            (updated_mod_data.lookup id).join⟩)

/-- The bootstrap phase of `updates` (src/main.py lines 172-187), run
only when the loaded cache is empty: seed one cache entry per tracked
id (no adult filter here) from full mod details. Any exception
propagates: this code is outside the while loop and its try block. -/
def bootstrap (env : Env) (cache : Cache) : Except String Cache :=
  match env.fetch_updated_mods with
  | .error e => .error e
  | .ok updated_mods =>
    let updated_mod_data :=
      dictOf (updated_mods.map (fun m => (m.mod_id, m.latest_file_update)))
    match env.fetch_tracked_mods with
    | .error e => .error e
    | .ok tracked_mods =>
      bootstrapFold env updated_mod_data
        ((tracked_mods.map (fun m => m.mod_id)).dedup) cache

/-- The whole `updates` entry point (src/main.py lines 153-280): run the
bootstrap when the persisted cache is empty (persisting its result,
line 186), then the steady-state loop; a bootstrap exception escapes
the function, so on error nothing further runs and no state is saved. -/
def updatesMain (benv : Env) (envs : List Env) (hide_adult_content : Bool)
    (cache0 : Cache) : Except String RunResult :=
  if cache0.isEmpty then
    match bootstrap benv cache0 with
    | .error e => .error e
    | .ok c =>
      let r := updatesLoopRun envs hide_adult_content c
      .ok ⟨r.cache, c :: r.saved, r.notifs, r.errors⟩
  else
    .ok (updatesLoopRun envs hide_adult_content cache0)

/-- The decimal digit character for a single digit (json.dump writes
int dict keys with str()). -/
def digitChar : Nat → Char
  | 0 => '0' | 1 => '1' | 2 => '2' | 3 => '3' | 4 => '4'
  | 5 => '5' | 6 => '6' | 7 => '7' | 8 => '8' | _ => '9'

/-- The numeric value of a decimal digit character (the digit
accumulation performed by Python int() on a decimal string). -/
def digitVal (c : Char) : Nat := c.toNat - 48

/-- The decimal character sequence of a natural number, most significant
digit first; models str(n) for a nonnegative int. -/
def natToChars (n : Nat) : List Char :=
  if n < 10 then [digitChar n]
  else natToChars (n / 10) ++ [digitChar (n % 10)]
termination_by n
decreasing_by exact Nat.div_lt_self (by omega) (by omega)

/-- str(n) for a nonnegative int, as json.dump applies it to dict keys. -/
def natToStr (n : Nat) : String := ⟨natToChars n⟩

/-- int(s) on a canonical nonnegative decimal string (the key coercion
at src/main.py line 165). -/
def pyInt (s : String) : Nat :=
  s.data.foldl (fun a c => a * 10 + digitVal c) 0

/-- Serializing the Update Tracker cache with json.dump
(save_state, src/main.py lines 85-87): dict keys become their decimal
strings; JSON-representable values (strings, bools, ints, null) pass
through unchanged. -/
def saveUpdateState (cache : Cache) : List (String × CacheEntry) :=
  cache.map (fun p => (natToStr p.1, p.2))

/-- Loading the Update Tracker cache (load_state plus the comprehension
at src/main.py lines 164-166): coerce each string key back with int()
and rebuild the dict. -/
def loadUpdateState (stored : List (String × CacheEntry)) : Cache :=
  dictOf (stored.map (fun p => (pyInt p.1, p.2)))

theorem additionsStep_seen_mono (hide : Bool) (st : Seen × List AddNotification)
    (m : ModSummary) : st.1 ⊆ (additionsStep hide st m).1 := by
  intro x hx
  unfold additionsStep
  split
  · exact hx
  · split
    · exact hx
    · split
      · exact List.mem_cons_of_mem _ hx
      · exact List.mem_cons_of_mem _ hx

theorem additionsStep_mem_of_available (hide : Bool) (st : Seen × List AddNotification)
    (m : ModSummary) (hav : m.available = true) :
    m.mod_id ∈ (additionsStep hide st m).1 := by
  unfold additionsStep
  split
  · assumption
  · split
    · rename_i h2; rw [hav] at h2; simp at h2
    · dsimp only
      split
      · exact List.mem_cons_self _ _
      · exact List.mem_cons_self _ _

theorem additionsStep_seen_cases (hide : Bool) (st : Seen × List AddNotification)
    (m : ModSummary) (x : Nat) (hx : x ∈ (additionsStep hide st m).1) :
    x ∈ st.1 ∨ (x = m.mod_id ∧ m.available = true) := by
  unfold additionsStep at hx
  split at hx
  · exact Or.inl hx
  · split at hx
    · exact Or.inl hx
    · rename_i hav
      split at hx <;>
      · rcases List.mem_cons.mp hx with h | h
        · exact Or.inr ⟨h, by revert hav; cases m.available <;> simp⟩
        · exact Or.inl h

theorem additionsStep_notif_cases (hide : Bool) (st : Seen × List AddNotification)
    (m : ModSummary) (n : AddNotification) (hn : n ∈ (additionsStep hide st m).2) :
    n ∈ st.2 ∨ (n.mod_id = m.mod_id ∧ m.mod_id ∉ st.1 ∧ m.available = true ∧
      (hide && m.contains_adult_content) = false) := by
  unfold additionsStep at hn
  split at hn
  · exact Or.inl hn
  · split at hn
    · exact Or.inl hn
    · rename_i hseen hav
      split at hn
      · exact Or.inl hn
      · rename_i hfilter
        rcases List.mem_append.mp hn with h | h
        · exact Or.inl h
        · rcases List.mem_singleton.mp h with rfl
          exact Or.inr ⟨rfl, hseen, by revert hav; cases m.available <;> simp,
            by revert hfilter; cases (hide && m.contains_adult_content) <;> simp⟩

theorem additionsFold_seen_mono (hide : Bool) :
    ∀ (l : List ModSummary) (st : Seen × List AddNotification) (x : Nat),
      x ∈ st.1 → x ∈ (l.foldl (additionsStep hide) st).1 := by
  intro l
  induction l with
  | nil => intro st x hx; simpa using hx
  | cons m rest ih =>
    intro st x hx
    exact ih (additionsStep hide st m) x (additionsStep_seen_mono hide st m hx)

theorem additionsFold_available_mem (hide : Bool) :
    ∀ (l : List ModSummary) (st : Seen × List AddNotification) (x : Nat),
      (∃ m ∈ l, m.mod_id = x ∧ m.available = true) →
      x ∈ (l.foldl (additionsStep hide) st).1 := by
  intro l
  induction l with
  | nil => intro st x h; simp at h
  | cons m rest ih =>
    intro st x h
    rcases h with ⟨m', hm', hid, hav⟩
    rcases List.mem_cons.mp hm' with rfl | hm'
    · subst hid
      exact additionsFold_seen_mono hide rest (additionsStep hide st m') m'.mod_id
        (additionsStep_mem_of_available hide st m' hav)
    · exact ih (additionsStep hide st m) x ⟨m', hm', hid, hav⟩

theorem additionsFold_seen_src (hide : Bool) :
    ∀ (l : List ModSummary) (st : Seen × List AddNotification) (x : Nat),
      x ∈ (l.foldl (additionsStep hide) st).1 →
      x ∈ st.1 ∨ ∃ m ∈ l, m.mod_id = x ∧ m.available = true := by
  intro l
  induction l with
  | nil => intro st x hx; exact Or.inl (by simpa using hx)
  | cons m rest ih =>
    intro st x hx
    rcases ih (additionsStep hide st m) x hx with h | ⟨m', hm', hid, hav⟩
    · rcases additionsStep_seen_cases hide st m x h with h' | ⟨rfl, hav⟩
      · exact Or.inl h'
      · exact Or.inr ⟨m, List.mem_cons_self _ _, rfl, hav⟩
    · exact Or.inr ⟨m', List.mem_cons_of_mem _ hm', hid, hav⟩

theorem additionsFold_notif_src (hide : Bool) :
    ∀ (l : List ModSummary) (st : Seen × List AddNotification) (n : AddNotification),
      n ∈ (l.foldl (additionsStep hide) st).2 →
      n ∈ st.2 ∨ ∃ m ∈ l, n.mod_id = m.mod_id ∧ m.mod_id ∉ st.1 ∧ m.available = true ∧
        (hide && m.contains_adult_content) = false := by
  intro l
  induction l with
  | nil => intro st n hn; exact Or.inl (by simpa using hn)
  | cons m rest ih =>
    intro st n hn
    rcases ih (additionsStep hide st m) n hn with h | ⟨m', hm', hid, hnotin, hav, hfil⟩
    · rcases additionsStep_notif_cases hide st m n h with h' | ⟨hid, hnotin, hav, hfil⟩
      · exact Or.inl h'
      · exact Or.inr ⟨m, List.mem_cons_self _ _, hid, hnotin, hav, hfil⟩
    · exact Or.inr ⟨m', List.mem_cons_of_mem _ hm', hid,
        fun hx => hnotin (additionsStep_seen_mono hide st m hx), hav, hfil⟩

theorem additionsFold_stable (hide : Bool) :
    ∀ (l : List ModSummary) (st : Seen × List AddNotification),
      (∀ m ∈ l, m.available = true → m.mod_id ∈ st.1) →
      l.foldl (additionsStep hide) st = st := by
  intro l
  induction l with
  | nil => intro st _; rfl
  | cons m rest ih =>
    intro st h
    have hstep : additionsStep hide st m = st := by
      unfold additionsStep
      split
      · rfl
      · split
        · rfl
        · rename_i hseen hav
          exact absurd (h m (List.mem_cons_self _ _)
            (by revert hav; cases m.available <;> simp)) hseen
    rw [List.foldl_cons, hstep]
    exact ih st (fun m' hm' => h m' (List.mem_cons_of_mem _ hm'))

theorem additionsCycle_seen_mono (hide : Bool) (mods : List ModSummary) (seen : Seen)
    (x : Nat) (hx : x ∈ seen) : x ∈ (additionsCycle hide mods seen).1 := by
  unfold additionsCycle
  exact additionsFold_seen_mono hide _ (seen, []) x hx

theorem additionsCycle_no_renotify (hide : Bool) (mods : List ModSummary) (seen : Seen)
    (x : Nat) (hx : x ∈ seen) :
    ∀ n ∈ (additionsCycle hide mods seen).2, n.mod_id ≠ x := by
  intro n hn heq
  unfold additionsCycle at hn
  rcases additionsFold_notif_src hide _ (seen, []) n hn with h | ⟨m', _, hid, hnotin, _, _⟩
  · simp at h
  · rw [heq] at hid
    exact hnotin (hid ▸ hx)

theorem additionsCycles_never_renotify (x : Nat) :
    ∀ (cycles : List (Bool × List ModSummary)) (seen : Seen), x ∈ seen →
      x ∈ (additionsCycles cycles seen).1 ∧
      ∀ n ∈ (additionsCycles cycles seen).2, n.mod_id ≠ x := by
  intro cycles
  induction cycles with
  | nil =>
    intro seen hx
    exact ⟨by simpa [additionsCycles] using hx, by intro n hn; simp [additionsCycles] at hn⟩
  | cons c rest ih =>
    intro seen hx
    obtain ⟨hide, mods⟩ := c
    have h1 : x ∈ (additionsCycle hide mods seen).1 :=
      additionsCycle_seen_mono hide mods seen x hx
    have h2 := ih (additionsCycle hide mods seen).1 h1
    refine ⟨by simpa [additionsCycles] using h2.1, ?_⟩
    intro n hn
    simp only [additionsCycles] at hn
    rcases List.mem_append.mp hn with h | h
    · exact additionsCycle_no_renotify hide mods seen x hx n h
    · exact h2.2 n h

/-- C4: running the Addition Tracker a second time on the same remote
snapshot, starting from the seen-set produced by the first cycle,
yields zero notifications. -/
theorem additions_second_cycle_silent (hide : Bool) (mods : List ModSummary) (seen : Seen) :
    (additionsCycle hide mods (additionsCycle hide mods seen).1).2 = [] := by
  unfold additionsCycle
  set l := mods.mergeSort (fun a b => decide (a.mod_id ≤ b.mod_id)) with hl
  have hst := additionsFold_stable hide l ((l.foldl (additionsStep hide) (seen, [])).1, [])
    (fun m hm hav => additionsFold_available_mem hide l (seen, []) m.mod_id ⟨m, hm, rfl, hav⟩)
  rw [hst]

/-- C5: with the adult-content filter active, an available adult mod not
yet in the seen-set is added to the seen-set, produces no notification
in that cycle, and is never notified in any sequence of later cycles,
even ones run with the filter disabled.  The identifier-uniqueness
hypothesis reflects the data model (mod ids are unique per game). -/
theorem additions_adult_one_shot (mods : List ModSummary) (seen : Seen) (m : ModSummary)
    (hm : m ∈ mods) (hav : m.available = true) (_had : m.contains_adult_content = true)
    (_hnew : m.mod_id ∉ seen)
    (huniq : ∀ m' ∈ mods, m'.mod_id = m.mod_id → m'.contains_adult_content = true) :
    m.mod_id ∈ (additionsCycle true mods seen).1 ∧
    (∀ n ∈ (additionsCycle true mods seen).2, n.mod_id ≠ m.mod_id) ∧
    (∀ later : List (Bool × List ModSummary),
      ∀ n ∈ (additionsCycles later (additionsCycle true mods seen).1).2,
        n.mod_id ≠ m.mod_id) := by
  have h1 : m.mod_id ∈ (additionsCycle true mods seen).1 := by
    unfold additionsCycle
    exact additionsFold_available_mem true _ (seen, []) m.mod_id
      ⟨m, List.mem_mergeSort.mpr hm, rfl, hav⟩
  refine ⟨h1, ?_, ?_⟩
  · intro n hn heq
    unfold additionsCycle at hn
    rcases additionsFold_notif_src true _ (seen, []) n hn with h | ⟨m', hm', hid, _, _, hfil⟩
    · simp at h
    · have hadult : m'.contains_adult_content = true :=
        huniq m' (List.mem_mergeSort.mp hm') (by rw [← hid, heq])
      rw [hadult] at hfil
      simp at hfil
  · intro later n hn
    exact (additionsCycles_never_renotify m.mod_id later _ h1).2 n hn

theorem additions_adult_one_shot_witness :
    (5 ∈ (additionsCycle true [⟨5, "a", "N", "d", "1.0", true, true⟩] []).1 ∧
    (∀ n ∈ (additionsCycle true [⟨5, "a", "N", "d", "1.0", true, true⟩] []).2,
      n.mod_id ≠ 5) ∧
    (∀ later : List (Bool × List ModSummary),
      ∀ n ∈ (additionsCycles later
        (additionsCycle true [⟨5, "a", "N", "d", "1.0", true, true⟩] []).1).2,
        n.mod_id ≠ 5)) :=
  additions_adult_one_shot [⟨5, "a", "N", "d", "1.0", true, true⟩] []
    ⟨5, "a", "N", "d", "1.0", true, true⟩ (by simp) rfl rfl (by simp) (by simp)

/-- C6: a mod whose availability flag is false and whose id is not in
the seen-set is skipped: its id is not added to the seen-set and no
notification carries its id, so the next cycle re-evaluates it.  The
identifier-uniqueness hypothesis reflects the data model. -/
theorem additions_unavailable_retry (hide : Bool) (mods : List ModSummary) (seen : Seen)
    (m : ModSummary) (_hm : m ∈ mods) (hunav : m.available = false)
    (hnot : m.mod_id ∉ seen)
    (huniq : ∀ m' ∈ mods, m'.mod_id = m.mod_id → m' = m) :
    m.mod_id ∉ (additionsCycle hide mods seen).1 ∧
    ∀ n ∈ (additionsCycle hide mods seen).2, n.mod_id ≠ m.mod_id := by
  constructor
  · intro contra
    unfold additionsCycle at contra
    rcases additionsFold_seen_src hide _ (seen, []) m.mod_id contra with h | ⟨m', hm', hid, hav⟩
    · exact hnot h
    · have := huniq m' (List.mem_mergeSort.mp hm') hid
      rw [this] at hav
      rw [hunav] at hav
      exact absurd hav (by simp)
  · intro n hn heq
    unfold additionsCycle at hn
    rcases additionsFold_notif_src hide _ (seen, []) n hn with h | ⟨m', hm', hid, _, hav, _⟩
    · simp at h
    · have := huniq m' (List.mem_mergeSort.mp hm') (by rw [← hid, heq])
      rw [this] at hav
      rw [hunav] at hav
      exact absurd hav (by simp)

theorem additions_unavailable_retry_witness :
    (9 ∉ (additionsCycle false [⟨9, "a", "N", "d", "1.0", false, false⟩] []).1 ∧
    ∀ n ∈ (additionsCycle false [⟨9, "a", "N", "d", "1.0", false, false⟩] []).2,
      n.mod_id ≠ 9) :=
  additions_unavailable_retry false [⟨9, "a", "N", "d", "1.0", false, false⟩] []
    ⟨9, "a", "N", "d", "1.0", false, false⟩ (by simp) rfl (by simp) (by simp)


theorem lookup_assocUpsert_ne {α : Type} (l : List (Nat × α)) (k k' : Nat) (v : α)
    (h : k' ≠ k) : (assocUpsert l k v).lookup k' = l.lookup k' := by
  induction l with
  | nil => simp [assocUpsert, List.lookup, beq_false_of_ne h]
  | cons p rest ih =>
    by_cases hp : p.1 = k
    · cases p with
      | mk a b =>
        simp only [assocUpsert, if_pos hp]
        simp only at hp
        subst hp
        simp [List.lookup, beq_false_of_ne h]
    · cases p with
      | mk a b =>
        simp only [assocUpsert, if_neg hp]
        by_cases hk : k' = a
        · simp [List.lookup, hk]
        · simp [List.lookup, beq_false_of_ne hk, ih]

theorem updatesStep_cache_ne (env : Env) (upd : List (Nat × Option Int)) (st : UpdState)
    (id j : Nat) (hne : id ≠ j) :
    (updatesStep env upd st j).cache.lookup id = st.cache.lookup id := by
  unfold updatesStep
  dsimp only
  repeat' split
  all_goals simp [lookup_assocUpsert_ne _ _ _ _ hne]

theorem updatesStep_fetched (env : Env) (upd : List (Nat × Option Int)) (st : UpdState)
    (j : Nat) :
    (updatesStep env upd st j).fetched = st.fetched ∨
    (updatesStep env upd st j).fetched = st.fetched ++ [j] := by
  unfold updatesStep
  dsimp only
  repeat' split
  all_goals simp

theorem updatesStep_notifs (env : Env) (upd : List (Nat × Option Int)) (st : UpdState)
    (j : Nat) :
    (updatesStep env upd st j).notifications = st.notifications ∨
    ∃ n cls, (updatesStep env upd st j).notifications = st.notifications ++ [n] ∧
      n.mod_id = j ∧ env.fetch_mod_changelogs j = Except.ok cls ∧
      n.new_versions = newVersionsOf cls n.old_version := by
  unfold updatesStep
  dsimp only
  repeat' split
  all_goals try (left; rfl)
  right
  exact ⟨_, _, rfl, rfl, by assumption, rfl⟩

theorem updatesStep_skip (env : Env) (upd : List (Nat × Option Int)) (st : UpdState)
    (id : Nat) (entry : CacheEntry)
    (hc : st.cache.lookup id = some entry)
    (hcond : (lfuTruthy ((upd.lookup id).join)
      && (entry.latest_file_update != (upd.lookup id).join)) = false) :
    updatesStep env upd st id = st := by
  unfold updatesStep
  dsimp only
  by_cases herr : st.error.isSome = true
  · simp [herr]
  · rw [if_neg herr, hc]
    dsimp only
    rw [hcond]
    simp

theorem updatesFold_untouched (env : Env) (upd : List (Nat × Option Int)) (id : Nat)
    (entry : CacheEntry)
    (hcond : (lfuTruthy ((upd.lookup id).join)
      && (entry.latest_file_update != (upd.lookup id).join)) = false) :
    ∀ (ids : List Nat) (st : UpdState),
      st.cache.lookup id = some entry → id ∉ st.fetched →
      (∀ n ∈ st.notifications, n.mod_id ≠ id) →
      ((ids.foldl (updatesStep env upd) st).cache.lookup id = some entry ∧
       id ∉ (ids.foldl (updatesStep env upd) st).fetched ∧
       ∀ n ∈ (ids.foldl (updatesStep env upd) st).notifications, n.mod_id ≠ id) := by
  intro ids
  induction ids with
  | nil => intro st hc hf hn; exact ⟨hc, hf, hn⟩
  | cons j rest ih =>
    intro st hc hf hn
    rw [List.foldl_cons]
    by_cases hj : j = id
    · subst hj
      rw [updatesStep_skip env upd st j entry hc hcond]
      exact ih st hc hf hn
    · have hne : id ≠ j := fun h => hj h.symm
      refine ih (updatesStep env upd st j) ?_ ?_ ?_
      · rw [updatesStep_cache_ne env upd st id j hne]
        exact hc
      · rcases updatesStep_fetched env upd st j with h | h
        · rw [h]; exact hf
        · rw [h]
          intro hmem
          rcases List.mem_append.mp hmem with h' | h'
          · exact hf h'
          · exact hne (List.mem_singleton.mp h')
      · rcases updatesStep_notifs env upd st j with h | ⟨n', cls, h, hid, _, _⟩
        · rw [h]; exact hn
        · rw [h]
          intro n hmem
          rcases List.mem_append.mp hmem with h' | h'
          · exact hn n h'
          · rw [List.mem_singleton.mp h', hid]
            exact fun hcontra => hne hcontra.symm

/-- C7: in a steady-state cycle, a tracked identifier already in the
cache whose remote latest_file_update equals the cached value or is
absent from the remote-updated map triggers no detail fetch, no
notification, and leaves its cache entry unchanged. -/
theorem updates_noop_on_unchanged_timestamp (env : Env) (hide : Bool) (cache : Cache)
    (id : Nat) (entry : CacheEntry) (upd : List UpdatedEntry)
    (hcache : cache.lookup id = some entry)
    (hupd : env.fetch_updated_mods = Except.ok upd)
    (hskip : (dictOf (upd.map (fun m => (m.mod_id, m.latest_file_update)))).lookup id = none ∨
      ((dictOf (upd.map (fun m => (m.mod_id, m.latest_file_update)))).lookup id).join
        = entry.latest_file_update) :
    (updatesCycleBody env hide cache).cache.lookup id = some entry ∧
    id ∉ (updatesCycleBody env hide cache).fetched ∧
    ∀ n ∈ (updatesCycleBody env hide cache).notifications, n.mod_id ≠ id := by
  have hcond : (lfuTruthy
      (((dictOf (upd.map (fun m => (m.mod_id, m.latest_file_update)))).lookup id).join)
      && (entry.latest_file_update !=
        ((dictOf (upd.map (fun m => (m.mod_id, m.latest_file_update)))).lookup id).join))
      = false := by
    rcases hskip with h | h
    · rw [h]
      rfl
    · rw [h]
      simp [lfuTruthy]
  unfold updatesCycleBody
  rw [hupd]
  dsimp only
  cases htr : env.fetch_tracked_mods with
  | error e => exact ⟨hcache, by simp, by simp⟩
  | ok tracked =>
    exact updatesFold_untouched env _ id entry hcond _ _ hcache (by simp) (by simp)

/-- Concrete scenario for the unchanged-timestamp claim: one tracked
mod whose remote timestamp equals the cached one. -/
def envNoop : Env :=
  ⟨Except.ok [⟨4, some 5⟩], Except.ok [⟨4, false⟩],
    fun _ => Except.error "unexpected fetch",
    fun _ => Except.error "unexpected fetch"⟩

def cacheNoop : Cache := [(4, ⟨"1.0", false, some 5⟩)]

theorem updates_noop_on_unchanged_timestamp_witness :
    (updatesCycleBody envNoop false cacheNoop).cache.lookup 4 =
      some ⟨"1.0", false, some 5⟩ ∧
    4 ∉ (updatesCycleBody envNoop false cacheNoop).fetched ∧
    ∀ n ∈ (updatesCycleBody envNoop false cacheNoop).notifications, n.mod_id ≠ 4 :=
  updates_noop_on_unchanged_timestamp envNoop false cacheNoop 4 ⟨"1.0", false, some 5⟩
    [⟨4, some 5⟩] rfl rfl (Or.inr rfl)

theorem updatesFold_notif_changelog (env : Env) (upd : List (Nat × Option Int)) :
    ∀ (ids : List Nat) (st : UpdState),
      (∀ n ∈ st.notifications, ∀ cls, env.fetch_mod_changelogs n.mod_id = Except.ok cls →
        n.new_versions = newVersionsOf cls n.old_version) →
      ∀ n ∈ (ids.foldl (updatesStep env upd) st).notifications,
        ∀ cls, env.fetch_mod_changelogs n.mod_id = Except.ok cls →
          n.new_versions = newVersionsOf cls n.old_version := by
  intro ids
  induction ids with
  | nil => intro st h; exact h
  | cons j rest ih =>
    intro st h
    rw [List.foldl_cons]
    refine ih (updatesStep env upd st j) ?_
    rcases updatesStep_notifs env upd st j with heq | ⟨n', cls', heq, hid, hok, hver⟩
    · rw [heq]; exact h
    · rw [heq]
      intro n hmem cls hcls
      rcases List.mem_append.mp hmem with h' | h'
      · exact h n h' cls hcls
      · rw [List.mem_singleton.mp h'] at hcls ⊢
        rw [hid] at hcls
        rw [hok] at hcls
        cases hcls
        exact hver

theorem updatesCycleBody_notif_changelog (env : Env) (hide : Bool) (cache : Cache) :
    ∀ n ∈ (updatesCycleBody env hide cache).notifications,
      ∀ cls, env.fetch_mod_changelogs n.mod_id = Except.ok cls →
        n.new_versions = newVersionsOf cls n.old_version := by
  unfold updatesCycleBody
  cases hu : env.fetch_updated_mods with
  | error e => intro n hn; simp at hn
  | ok updated_mods =>
    dsimp only
    cases ht : env.fetch_tracked_mods with
    | error e => intro n hn; simp at hn
    | ok tracked =>
      exact updatesFold_notif_changelog env _ _ _ (by intro n hn; simp at hn)

/-- C3: for a confirmed version change whose cached old version is a key
of the fetched changelog map, the reported entries are exactly the
changelog entries strictly after the position of the old version in the
key order (the spec instance with old version 1.0 and keys
1.0 / 1.1 / 1.2 is the witness below). -/
theorem updates_reports_entries_after_old_version (env : Env) (hide : Bool) (cache : Cache)
    (n : UpdNotification) (cls : List (String × List String)) (i : Nat)
    (hn : n ∈ (updatesCycleBody env hide cache).notifications)
    (hcls : env.fetch_mod_changelogs n.mod_id = Except.ok cls)
    (hidx : cls.findIdx? (fun p => p.1 == n.old_version) = some i) :
    n.new_versions = cls.drop (i + 1) := by
  have h := updatesCycleBody_notif_changelog env hide cache n hn cls hcls
  rw [h]
  unfold newVersionsOf
  rw [hidx]

/-- Concrete scenario for version-change detection, following the spec
example: cached version 1.0, changelog keys 1.0 / 1.1 / 1.2, fetched
current version 1.2. -/
def envDetect : Env :=
  ⟨Except.ok [⟨7, some 2⟩], Except.ok [⟨7, false⟩],
    fun i => if i = 7 then Except.ok ⟨"M", "A", "d", "1.2", false⟩
      else Except.error "missing",
    fun i => if i = 7 then
        Except.ok [("1.0", ["base"]), ("1.1", ["fix A"]), ("1.2", ["fix B"])]
      else Except.error "missing"⟩

def cacheDetect : Cache := [(7, ⟨"1.0", false, some 1⟩)]

def clsDetect : List (String × List String) :=
  [("1.0", ["base"]), ("1.1", ["fix A"]), ("1.2", ["fix B"])]

theorem updates_reports_entries_after_old_version_witness :
    (⟨7, "M", "A", "d", "1.0", "1.2", [("1.1", ["fix A"]), ("1.2", ["fix B"])]⟩ :
      UpdNotification).new_versions = clsDetect.drop (0 + 1) :=
  updates_reports_entries_after_old_version envDetect false cacheDetect
    ⟨7, "M", "A", "d", "1.0", "1.2", [("1.1", ["fix A"]), ("1.2", ["fix B"])]⟩
    clsDetect 0 (by decide) rfl (by decide)

/-- Concrete scenario for the changelog fallback: cached version 0.9 is
absent from a changelog map of 3 entries. -/
def envFallback : Env :=
  ⟨Except.ok [⟨3, some 2⟩], Except.ok [⟨3, false⟩],
    fun i => if i = 3 then Except.ok ⟨"M", "A", "d", "1.2", false⟩
      else Except.error "missing",
    fun i => if i = 3 then
        Except.ok [("1.0", ["base"]), ("1.1", ["fix A"]), ("1.2", ["fix B"])]
      else Except.error "missing"⟩

def cacheFallback : Cache := [(3, ⟨"0.9", false, some 1⟩)]

def clsFallback : List (String × List String) :=
  [("1.0", ["base"]), ("1.1", ["fix A"]), ("1.2", ["fix B"])]

/-- C1 counterexample: with cached version 0.9 absent from the 3-entry
changelog, the cycle reports only the final entry 1.2, not the entries
from the second-to-last entry onward (1.1 and 1.2) that the claim
requires: the -2 sentinel of src/main.py line 224 feeds the slice
[-2 + 1 :] = [-1:], which keeps a single entry. -/
theorem updates_changelog_fallback_counterexample :
    (updatesCycleBody envFallback false cacheFallback).notifications.map
      (fun n => n.new_versions) = [[("1.2", ["fix B"])]] ∧
    (updatesCycleBody envFallback false cacheFallback).notifications.map
      (fun n => n.new_versions) ≠ [clsFallback.drop (clsFallback.length - 2)] := by
  exact ⟨rfl, by decide⟩

/-- C1 amended: for a confirmed version change whose cached old version
is absent from the fetched changelog map, the reported entries are
those from the last entry onward, i.e. exactly the final changelog
entry (and nothing when the changelog is empty) — one entry fewer than
the second-to-last-onward rule the claim states. -/
theorem updates_changelog_fallback_last_entry (env : Env) (hide : Bool) (cache : Cache)
    (n : UpdNotification) (cls : List (String × List String))
    (hn : n ∈ (updatesCycleBody env hide cache).notifications)
    (hcls : env.fetch_mod_changelogs n.mod_id = Except.ok cls)
    (habs : cls.findIdx? (fun p => p.1 == n.old_version) = none) :
    n.new_versions = cls.drop (cls.length - 1) := by
  have h := updatesCycleBody_notif_changelog env hide cache n hn cls hcls
  rw [h]
  unfold newVersionsOf
  rw [habs]

theorem updates_changelog_fallback_last_entry_witness :
    (⟨3, "M", "A", "d", "0.9", "1.2", [("1.2", ["fix B"])]⟩ :
      UpdNotification).new_versions = clsFallback.drop (clsFallback.length - 1) :=
  updates_changelog_fallback_last_entry envFallback false cacheFallback
    ⟨3, "M", "A", "d", "0.9", "1.2", [("1.2", ["fix B"])]⟩
    clsFallback (by decide) rfl (by decide)

/-- Concrete scenario refuting cached-flag filtering: the cache entry
for id 1 has is_adult true, but the freshly fetched tracked-mods entry
has is_adult false, and the policy is active. -/
def envAdultFlag : Env :=
  ⟨Except.ok [⟨1, some 6⟩], Except.ok [⟨1, false⟩],
    fun i => if i = 1 then Except.ok ⟨"M", "A", "d", "2.0", false⟩
      else Except.error "missing",
    fun i => if i = 1 then Except.ok [("1.0", ["a"]), ("2.0", ["b"])]
      else Except.error "missing"⟩

def cacheAdultFlag : Cache := [(1, ⟨"1.0", true, some 5⟩)]

/-- C2 counterexample: with the policy active and the cached adult flag
of id 1 true, the claim requires id 1 to be excluded entirely from
processing, but the cycle performs a detail fetch for it and emits a
notification: the filter at src/main.py line 198 reads the is_adult
field of the freshly fetched tracked entry, not the cached flag. -/
theorem updates_adult_filter_counterexample :
    ((cacheAdultFlag.lookup 1).map (fun e => e.is_adult) = some true) ∧
    (updatesCycleBody envAdultFlag true cacheAdultFlag).fetched = [1] ∧
    (updatesCycleBody envAdultFlag true cacheAdultFlag).notifications.map
      (fun n => n.mod_id) = [1] :=
  ⟨rfl, rfl, rfl⟩

/-- C2 amended: with the adult-content policy active, an identifier is
selected for processing exactly when some freshly fetched tracked-mods
entry carries it with is_adult false; the locally cached adult flag
plays no part in this filtering decision (filteredTrackedIds does not
take the cache as an argument). -/
theorem updates_filter_by_fetched_adult_flag (tracked_mods : List TrackedMod) (id : Nat) :
    id ∈ filteredTrackedIds true tracked_mods ↔
    ∃ m ∈ tracked_mods, m.mod_id = id ∧ m.is_adult = false := by
  unfold filteredTrackedIds
  rw [List.mem_dedup, List.mem_map]
  constructor
  · rintro ⟨m, hm, hid⟩
    rcases List.mem_filter.mp hm with ⟨hmem, hflag⟩
    refine ⟨m, hmem, hid, ?_⟩
    revert hflag
    cases m.is_adult <;> simp
  · rintro ⟨m, hmem, hid, hflag⟩
    exact ⟨m, List.mem_filter.mpr ⟨hmem, by rw [hflag]; rfl⟩, hid⟩

/-- C8: exception-handling asymmetry.  An exception inside an Update
Tracker steady-state cycle body is caught: it is appended to the error
log, no snapshot is persisted for that cycle, and the loop continues
with the remaining cycles (the run function returns normally).  The
Addition Tracker wraps no per-cycle handler: a remote-fetch failure
makes the whole run return that error. -/
theorem error_handling_asymmetry :
    (∀ (env : Env) (rest : List Env) (hide : Bool) (cache : Cache) (e : String),
      (updatesCycleBody env hide cache).error = some e →
      updatesLoopRun (env :: rest) hide cache =
        ⟨(updatesLoopRun rest hide (updatesCycleBody env hide cache).cache).cache,
         (updatesLoopRun rest hide (updatesCycleBody env hide cache).cache).saved,
         (updatesCycleBody env hide cache).notifications ++
           (updatesLoopRun rest hide (updatesCycleBody env hide cache).cache).notifs,
         e :: (updatesLoopRun rest hide (updatesCycleBody env hide cache).cache).errors⟩) ∧
    (∀ (e : String) (rest : List (Except String (List ModSummary))) (hide : Bool)
      (seen : Seen),
      additionsRun (Except.error e :: rest) hide seen = Except.error e) := by
  constructor
  · intro env rest hide cache e herr
    conv_lhs => rw [updatesLoopRun]
    rw [herr]
    rfl
  · intro e rest hide seen
    rfl

/-- A failing remote environment for the witness runs. -/
def envBoom : Env :=
  ⟨Except.error "boom", Except.error "boom",
    fun _ => Except.error "boom", fun _ => Except.error "boom"⟩

theorem error_handling_asymmetry_witness :
    (updatesLoopRun [envBoom] false [(1, ⟨"1.0", false, some 5⟩)] =
      ⟨(updatesLoopRun [] false
          (updatesCycleBody envBoom false [(1, ⟨"1.0", false, some 5⟩)]).cache).cache,
       (updatesLoopRun [] false
          (updatesCycleBody envBoom false [(1, ⟨"1.0", false, some 5⟩)]).cache).saved,
       (updatesCycleBody envBoom false [(1, ⟨"1.0", false, some 5⟩)]).notifications ++
         (updatesLoopRun [] false
            (updatesCycleBody envBoom false [(1, ⟨"1.0", false, some 5⟩)]).cache).notifs,
       "boom" :: (updatesLoopRun [] false
          (updatesCycleBody envBoom false [(1, ⟨"1.0", false, some 5⟩)]).cache).errors⟩) ∧
    additionsRun [Except.error "boom"] false [] = Except.error "boom" :=
  ⟨error_handling_asymmetry.1 envBoom [] false [(1, ⟨"1.0", false, some 5⟩)] "boom" rfl,
   error_handling_asymmetry.2 "boom" [] false []⟩

/-- C10: the bootstrap phase runs outside the per-cycle handler.  When
the persisted cache is empty and the bootstrap raises, the whole
`updates` run returns that error — nothing is persisted and the
steady-state loop never starts — whereas with a non-empty cache the run
always returns normally, whatever the cycle environments do. -/
theorem bootstrap_error_propagates :
    (∀ (benv : Env) (envs : List Env) (hide : Bool) (cache0 : Cache) (e : String),
      cache0.isEmpty = true → bootstrap benv cache0 = Except.error e →
      updatesMain benv envs hide cache0 = Except.error e) ∧
    (∀ (benv : Env) (envs : List Env) (hide : Bool) (cache0 : Cache),
      cache0.isEmpty = false →
      updatesMain benv envs hide cache0 =
        Except.ok (updatesLoopRun envs hide cache0)) := by
  constructor
  · intro benv envs hide cache0 e hempty hboot
    unfold updatesMain
    rw [if_pos hempty, hboot]
  · intro benv envs hide cache0 hfull
    unfold updatesMain
    rw [if_neg (by simp [hfull])]

theorem bootstrap_error_propagates_witness :
    updatesMain envBoom [] false [] = Except.error "boom" ∧
    updatesMain envBoom [] false [(1, ⟨"1.0", false, some 5⟩)] =
      Except.ok (updatesLoopRun [] false [(1, ⟨"1.0", false, some 5⟩)]) :=
  ⟨bootstrap_error_propagates.1 envBoom [] false [] "boom" rfl rfl,
   bootstrap_error_propagates.2 envBoom [] false [(1, ⟨"1.0", false, some 5⟩)] rfl⟩

theorem digitVal_digitChar (d : Nat) (h : d < 10) : digitVal (digitChar d) = d := by
  interval_cases d <;> rfl

theorem pyIntFold_natToChars (n : Nat) :
    ∀ a : Nat, (natToChars n).foldl (fun a c => a * 10 + digitVal c) a =
      a * 10 ^ (natToChars n).length + n := by
  induction n using Nat.strong_induction_on with
  | _ n ih =>
    intro a
    by_cases h : n < 10
    · rw [natToChars, if_pos h]
      simp [digitVal_digitChar n h]
    · rw [natToChars, if_neg h]
      rw [List.foldl_append]
      rw [ih (n / 10) (Nat.div_lt_self (by omega) (by omega)) a]
      simp only [List.foldl, List.length_append, List.length_singleton]
      rw [digitVal_digitChar (n % 10) (Nat.mod_lt n (by omega))]
      calc (a * 10 ^ (natToChars (n / 10)).length + n / 10) * 10 + n % 10
          = a * (10 ^ (natToChars (n / 10)).length * 10) + (10 * (n / 10) + n % 10) := by
            ring
        _ = a * 10 ^ ((natToChars (n / 10)).length + 1) + n := by
            rw [← pow_succ, Nat.div_add_mod]

theorem pyInt_natToStr (n : Nat) : pyInt (natToStr n) = n := by
  show (natToChars n).foldl (fun a c => a * 10 + digitVal c) 0 = n
  rw [pyIntFold_natToChars n 0]
  simp

theorem assocUpsert_append_of_not_mem {α : Type} (l : List (Nat × α)) (k : Nat) (v : α)
    (h : k ∉ l.map Prod.fst) : assocUpsert l k v = l ++ [(k, v)] := by
  induction l with
  | nil => rfl
  | cons p rest ih =>
    simp only [List.map_cons, List.mem_cons] at h
    push_neg at h
    simp only [assocUpsert, if_neg (Ne.symm h.1)]
    rw [ih h.2]
    rfl

theorem dictOfFold_self {α : Type} :
    ∀ (l acc : List (Nat × α)), (((acc ++ l).map Prod.fst).Nodup) →
      l.foldl (fun d p => assocUpsert d p.1 p.2) acc = acc ++ l := by
  intro l
  induction l with
  | nil => intro acc _; simp
  | cons p rest ih =>
    intro acc h
    obtain ⟨k, v⟩ := p
    have hassoc : acc ++ (k, v) :: rest = (acc ++ [(k, v)]) ++ rest := by simp
    have hnotin : k ∉ acc.map Prod.fst := by
      rw [List.map_append] at h
      rcases List.nodup_append.mp h with ⟨_, _, hdisj⟩
      intro hc
      exact hdisj hc (by simp)
    rw [List.foldl_cons]
    have hstep : assocUpsert acc k v = acc ++ [(k, v)] :=
      assocUpsert_append_of_not_mem acc k v hnotin
    rw [hstep]
    rw [ih (acc ++ [(k, v)]) (by rw [← hassoc]; exact h)]
    simp

theorem dictOf_nodup {α : Type} (l : List (Nat × α)) (h : (l.map Prod.fst).Nodup) :
    dictOf l = l := by
  have := dictOfFold_self l [] (by simpa using h)
  simpa [dictOf] using this

/-- C9: saving the Update Tracker cache and loading it back yields the
identical cache, every entry and field preserved, with the JSON string
keys coerced back to integer identifiers by int(); the hypothesis that
keys are distinct holds of every cache, which is a Python dict. -/
theorem update_cache_roundtrip (cache : Cache) (h : (cache.map Prod.fst).Nodup) :
    loadUpdateState (saveUpdateState cache) = cache := by
  unfold loadUpdateState saveUpdateState
  rw [List.map_map]
  have hpt : ∀ p ∈ cache,
      ((fun p : String × CacheEntry => (pyInt p.1, p.2)) ∘
        (fun p : Nat × CacheEntry => (natToStr p.1, p.2))) p = id p := by
    intro p _
    simp [Function.comp, pyInt_natToStr]
  rw [List.map_congr_left hpt, List.map_id]
  exact dictOf_nodup cache h

theorem update_cache_roundtrip_witness :
    loadUpdateState (saveUpdateState
      [(0, ⟨"1.0", false, none⟩), (12, ⟨"2.0", true, some 7⟩)]) =
      [(0, ⟨"1.0", false, none⟩), (12, ⟨"2.0", true, some 7⟩)] :=
  update_cache_roundtrip [(0, ⟨"1.0", false, none⟩), (12, ⟨"2.0", true, some 7⟩)]
    (by decide)
